import Mathlib

/-!
Shallow embedding of `src/pg_promoter.c` (a PostgreSQL standby-side
failover watchdog running as a background worker).

Modelling conventions:
* External effects (libpq calls, `fopen`/`fclose`/`kill`, `WaitLatch`)
  are driven by explicit environment records giving each call's outcome,
  and every modelled function returns the list of actions it performed,
  in order, together with its result.
* `proc_exit(n)` is modelled as the value `some n`; a function that
  returns normally yields `none` in the exit position.
* The consecutive-failure counter `retry_count` is a C `int` that starts
  at 0 and is only ever incremented, and the process exits once it
  reaches 5, so it is modelled as `Nat` (no overflow is reachable).
-/

namespace PgPromoter

/-- Result status of a `PQexec` call, mirroring libpq's `ExecStatusType`
constructors that the code can observe. -/
inductive ExecStatus where
  | PGRES_EMPTY_QUERY
  | PGRES_COMMAND_OK
  | PGRES_TUPLES_OK
  | PGRES_COPY_OUT
  | PGRES_COPY_IN
  | PGRES_BAD_RESPONSE
  | PGRES_NONFATAL_ERROR
  | PGRES_FATAL_ERROR
deriving DecidableEq

/-- Environment for one call of `heartbeatPrimaryServer` (lines 116-146):
whether `PQconnectdb` returned a non-NULL connection, the
`PQresultStatus` of the `PQexec` result, and the number of rows the
result carries (`PQntuples`; the C code never inspects it). -/
structure ProbeEnv where
  connectOk : Bool
  status : ExecStatus
  ntuples : Nat
deriving DecidableEq

/-- The externally visible actions of `heartbeatPrimaryServer`. -/
inductive HbAction where
  | connectdb
  | execQuery
  | finishConn
deriving DecidableEq

/-- Embedding of `heartbeatPrimaryServer` (lines 116-146): connect; on a
NULL connection, log, `PQfinish` and return false; otherwise run the
heartbeat query, and return true exactly when its status is
`PGRES_TUPLES_OK`, calling `PQfinish` on every path. -/
def heartbeatPrimaryServer (env : ProbeEnv) : List HbAction × Bool :=
  if env.connectOk = false then
    ([HbAction.connectdb, HbAction.finishConn], false)
  else if env.status ≠ ExecStatus.PGRES_TUPLES_OK then
    ([HbAction.connectdb, HbAction.execQuery, HbAction.finishConn], false)
  else
    ([HbAction.connectdb, HbAction.execQuery, HbAction.finishConn], true)

/-- Modelled from the spec (§4.1): "Success requires: connection
establishes AND the query returns exactly one row with a successful
status." Stated for comparison with `heartbeatPrimaryServer`, which is
the embedding of the code. -/
def probeSuccessSpec (env : ProbeEnv) : Bool :=
  env.connectOk && decide (env.status = ExecStatus.PGRES_TUPLES_OK)
    && decide (env.ntuples = 1)

/-- Environment for one call of `doPromote` (lines 213-246): whether
`fopen(trigger_filepath, "w")` returns non-NULL, whether `fclose`
returns 0, and whether `kill(PostmasterPid, SIGUSR1)` returns 0. -/
structure PromoteEnv where
  fopenOk : Bool
  fcloseOk : Bool
  killOk : Bool
deriving DecidableEq

/-- The attempted steps of `doPromote`, in the order the code issues
them: create (truncate) the trigger file, close it, signal the
postmaster with SIGUSR1. -/
inductive PStep where
  | createFile
  | closeFile
  | signalPostmaster
deriving DecidableEq

/-- Embedding of `doPromote` (lines 213-246): the list of steps it
attempts, in order, and `some 1` when it calls `proc_exit(1)` after a
failed step (`none` when it returns normally to its caller). -/
def doPromote (env : PromoteEnv) : List PStep × Option Nat :=
  if env.fopenOk = false then
    ([PStep.createFile], some 1)
  else if env.fcloseOk = false then
    ([PStep.createFile, PStep.closeFile], some 1)
  else if env.killOk = false then
    ([PStep.createFile, PStep.closeFile, PStep.signalPostmaster], some 1)
  else
    ([PStep.createFile, PStep.closeFile, PStep.signalPostmaster], none)

/-- Embedding of line 191-192 of `PromoterMain`:
`if (!heartbeatPrimaryServer()) retry_count++;`. -/
def recordResult (retry : Nat) (ok : Bool) : Nat :=
  if ok then retry else retry + 1

/-- External events of one iteration of the main loop: whether
`WaitLatch` reported postmaster death (`WL_POSTMASTER_DEATH` in `rc`),
whether `got_sighup` is set when checked, the probe environment for
this tick's `heartbeatPrimaryServer` call, and whether the SIGTERM
handler ran during this iteration (so `got_sigterm` is set at the next
loop-head check). -/
structure TickInput where
  death : Bool
  sighup : Bool
  probeEnv : ProbeEnv
  sigterm : Bool
deriving DecidableEq

/-- Observable actions of the main loop. `probe ok c` records one call
of `heartbeatPrimaryServer` returning `ok`, with `c` the value of
`retry_count` right after the conditional increment of that iteration. -/
inductive MAction where
  | wait
  | reload
  | probe : Bool → Nat → MAction
  | promoteCall
deriving DecidableEq

/-- The actions performed before the probe in an iteration that was not
pre-empted: the latch wait, then `ProcessConfigFile` when `got_sighup`
was set. -/
def preActions (sighup : Bool) : List MAction :=
  if sighup then [MAction.wait, MAction.reload] else [MAction.wait]

/-- Embedding of the `while (!got_sigterm)` loop of `PromoterMain`
(lines 164-203), driven by one `TickInput` per iteration. Returns the
action trace and `some n` for `proc_exit(n)` (`none` when the supplied
inputs are exhausted with the loop still running). The threshold is the
code's hard-coded 5 (line 196); after `doPromote` returns normally the
loop calls `proc_exit(0)` (line 199). -/
def runLoop (penv : PromoteEnv) (retry : Nat) (sigterm : Bool) :
    List TickInput → List MAction × Option Nat
  | [] => if sigterm = true then ([], some 1) else ([], none)
  | t :: rest =>
    if sigterm = true then ([], some 1)
    else if t.death = true then ([MAction.wait], some 1)
    else
      let hb := (heartbeatPrimaryServer t.probeEnv).2
      let retry2 := recordResult retry hb
      if 5 ≤ retry2 then
        (preActions t.sighup ++ [MAction.probe hb retry2, MAction.promoteCall],
          some ((doPromote penv).2.getD 0))
      else
        let r := runLoop penv retry2 t.sigterm rest
        (preActions t.sighup ++ [MAction.probe hb retry2] ++ r.1, r.2)

/-- Environment for the worker's setup routine (lines 89-108): whether
the preliminary `PQconnectdb` connectivity check returned a non-NULL
connection. -/
structure InitEnv where
  connectOk : Bool
deriving DecidableEq

/-- Embedding of the worker setup routine (lines 89-108): `retry_count`
is set to 0, a preliminary connection is attempted, and on failure the
process exits with code 1 (`some 1`); otherwise the connection is
closed and the routine returns (`none`). -/
def setupWorker (env : InitEnv) : Option Nat :=
  if env.connectOk = false then some 1 else none

/-- Embedding of `PromoterMain` (lines 149-204): run the setup routine,
and unless it exited, enter the main loop with `retry_count = 0` and
`got_sigterm` clear. -/
def PromoterMain (ienv : InitEnv) (penv : PromoteEnv)
    (inputs : List TickInput) : List MAction × Option Nat :=
  match setupWorker ienv with
  | some c => ([], some c)
  | none => runLoop penv 0 false inputs

/-- A tick whose probe fails (connection refused), with no signals. -/
def failTick : TickInput :=
  ⟨false, false, ⟨false, ExecStatus.PGRES_FATAL_ERROR, 0⟩, false⟩

/-- A tick whose probe fails and whose wait observed SIGTERM. -/
def failTickSigterm : TickInput :=
  ⟨false, false, ⟨false, ExecStatus.PGRES_FATAL_ERROR, 0⟩, true⟩

/-- A tick woken only by a reload request (SIGHUP), whose probe then
succeeds. -/
def hupTick : TickInput :=
  ⟨false, true, ⟨true, ExecStatus.PGRES_TUPLES_OK, 1⟩, false⟩

/-- A promotion environment in which every step succeeds. -/
def promoteAllOk : PromoteEnv := ⟨true, true, true⟩

/-! ## Helper lemmas -/

/-- Once `got_sigterm` is observed set at the loop head, the loop body
never runs again: the process exits with code 1 with no further
actions. -/
theorem runLoop_sigterm (penv : PromoteEnv) (retry : Nat)
    (inputs : List TickInput) :
    runLoop penv retry true inputs = ([], some 1) := by
  cases inputs <;> simp [runLoop]

/-- The pre-probe actions of an iteration contain no probe action. -/
theorem preActions_no_probe (b : Bool) (r : Bool) (c : Nat) :
    MAction.probe r c ∉ preActions b := by
  cases b <;> simp [preActions]

/-- The pre-probe actions of an iteration contain no promotion call. -/
theorem preActions_no_promote (b : Bool) :
    MAction.promoteCall ∉ preActions b := by
  cases b <;> simp [preActions]

/-- The conditional increment adds at most one. -/
theorem recordResult_le (retry : Nat) (ok : Bool) :
    recordResult retry ok ≤ retry + 1 := by
  cases ok <;> simp [recordResult]

/-- A probe driven by tick `t` fails. -/
def probeFailed (t : TickInput) : Bool :=
  !(heartbeatPrimaryServer t.probeEnv).2

/-- The conditional increment, expressed through `probeFailed`. -/
theorem recordResult_probeFailed (retry : Nat) (t : TickInput) :
    recordResult retry (heartbeatPrimaryServer t.probeEnv).2 =
      retry + (if probeFailed t = true then 1 else 0) := by
  cases h : (heartbeatPrimaryServer t.probeEnv).2 <;>
    simp [recordResult, probeFailed, h]

/-- Trace of a non-promoting, non-pre-empted iteration: wait, optional
reload, the probe, then the rest of the run. -/
theorem runLoop_cons_step_fst (penv : PromoteEnv) (retry : Nat)
    (t : TickInput) (rest : List TickInput) (hd : t.death = false)
    (h5 : ¬ 5 ≤ recordResult retry (heartbeatPrimaryServer t.probeEnv).2) :
    (runLoop penv retry false (t :: rest)).1 =
      preActions t.sighup ++
        [MAction.probe (heartbeatPrimaryServer t.probeEnv).2
          (recordResult retry (heartbeatPrimaryServer t.probeEnv).2)] ++
        (runLoop penv (recordResult retry (heartbeatPrimaryServer t.probeEnv).2)
          t.sigterm rest).1 := by
  simp [runLoop, hd, h5]

/-- Exit code of a non-promoting, non-pre-empted iteration: whatever the
rest of the run exits with. -/
theorem runLoop_cons_step_snd (penv : PromoteEnv) (retry : Nat)
    (t : TickInput) (rest : List TickInput) (hd : t.death = false)
    (h5 : ¬ 5 ≤ recordResult retry (heartbeatPrimaryServer t.probeEnv).2) :
    (runLoop penv retry false (t :: rest)).2 =
      (runLoop penv (recordResult retry (heartbeatPrimaryServer t.probeEnv).2)
        t.sigterm rest).2 := by
  simp [runLoop, hd, h5]

/-- Trace of the promoting iteration: wait, optional reload, the probe
that reached the threshold, then the promotion call; nothing follows. -/
theorem runLoop_cons_promote_fst (penv : PromoteEnv) (retry : Nat)
    (t : TickInput) (rest : List TickInput) (hd : t.death = false)
    (h5 : 5 ≤ recordResult retry (heartbeatPrimaryServer t.probeEnv).2) :
    (runLoop penv retry false (t :: rest)).1 =
      preActions t.sighup ++
        [MAction.probe (heartbeatPrimaryServer t.probeEnv).2
          (recordResult retry (heartbeatPrimaryServer t.probeEnv).2),
         MAction.promoteCall] := by
  simp [runLoop, hd, h5]

/-- Exit code of the promoting iteration: `doPromote`'s own exit when a
step failed, else the `proc_exit(0)` of line 199. -/
theorem runLoop_cons_promote_snd (penv : PromoteEnv) (retry : Nat)
    (t : TickInput) (rest : List TickInput) (hd : t.death = false)
    (h5 : 5 ≤ recordResult retry (heartbeatPrimaryServer t.probeEnv).2) :
    (runLoop penv retry false (t :: rest)).2 =
      some ((doPromote penv).2.getD 0) := by
  simp [runLoop, hd, h5]

/-- Shape of every run that promotes: starting with `retry_count ≤ 4`,
the trace ends with the probe that took the counter to exactly 5
followed by the promotion call, every earlier probe left the counter at
most 4, no earlier promotion call exists, and the exit code is the one
produced by the promotion path. -/
theorem runLoop_promote_shape (penv : PromoteEnv) :
    ∀ (inputs : List TickInput) (retry : Nat) (b : Bool), retry ≤ 4 →
      MAction.promoteCall ∈ (runLoop penv retry b inputs).1 →
      ∃ pref r,
        (runLoop penv retry b inputs).1 =
          pref ++ [MAction.probe r 5, MAction.promoteCall] ∧
        (∀ r' c, MAction.probe r' c ∈ pref → c ≤ 4) ∧
        MAction.promoteCall ∉ pref ∧
        (runLoop penv retry b inputs).2 = some ((doPromote penv).2.getD 0) := by
  intro inputs
  induction inputs with
  | nil =>
    intro retry b hr hm
    cases b <;> simp [runLoop] at hm
  | cons t rest ih =>
    intro retry b hr hm
    cases b with
    | true => simp [runLoop] at hm
    | false =>
      by_cases hd : t.death = true
      · simp [runLoop, hd] at hm
      · replace hd : t.death = false := by
          cases hdt : t.death
          · rfl
          · exact absurd hdt hd
        by_cases h5 : 5 ≤ recordResult retry (heartbeatPrimaryServer t.probeEnv).2
        · have h5eq : recordResult retry (heartbeatPrimaryServer t.probeEnv).2 = 5 := by
            have := recordResult_le retry (heartbeatPrimaryServer t.probeEnv).2
            omega
          refine ⟨preActions t.sighup, (heartbeatPrimaryServer t.probeEnv).2,
            ?_, ?_, ?_, ?_⟩
          · rw [runLoop_cons_promote_fst penv retry t rest hd h5, h5eq]
          · intro r' c hc
            exact absurd hc (preActions_no_probe t.sighup r' c)
          · exact preActions_no_promote t.sighup
          · exact runLoop_cons_promote_snd penv retry t rest hd h5
        · have hr2 : recordResult retry (heartbeatPrimaryServer t.probeEnv).2 ≤ 4 := by
            omega
          rw [runLoop_cons_step_fst penv retry t rest hd h5] at hm
          have hm' : MAction.promoteCall ∈
              (runLoop penv
                (recordResult retry (heartbeatPrimaryServer t.probeEnv).2)
                t.sigterm rest).1 := by
            rcases List.mem_append.1 hm with h | h
            · rcases List.mem_append.1 h with h' | h'
              · exact absurd h' (preActions_no_promote t.sighup)
              · simp at h'
            · exact h
          obtain ⟨pref', r, htr, hcs, hnp, hex⟩ := ih _ t.sigterm hr2 hm'
          refine ⟨preActions t.sighup ++
            [MAction.probe (heartbeatPrimaryServer t.probeEnv).2
              (recordResult retry (heartbeatPrimaryServer t.probeEnv).2)] ++
            pref', r, ?_, ?_, ?_, ?_⟩
          · rw [runLoop_cons_step_fst penv retry t rest hd h5, htr]
            simp [List.append_assoc]
          · intro r' c hc
            rcases List.mem_append.1 hc with h | h
            · rcases List.mem_append.1 h with h' | h'
              · exact absurd h' (preActions_no_probe t.sighup r' c)
              · simp at h'
                omega
            · exact hcs r' c h
          · intro hc
            rcases List.mem_append.1 hc with h | h
            · rcases List.mem_append.1 h with h' | h'
              · exact absurd h' (preActions_no_promote t.sighup)
              · simp at h'
            · exact hnp h
          · rw [runLoop_cons_step_snd penv retry t rest hd h5]
            exact hex

/-- A run can only promote after at least five failed probes (counting
from the initial `retry_count`). -/
theorem runLoop_promote_needs_failures (penv : PromoteEnv) :
    ∀ (inputs : List TickInput) (retry : Nat) (b : Bool),
      MAction.promoteCall ∈ (runLoop penv retry b inputs).1 →
      5 ≤ retry + inputs.countP probeFailed := by
  intro inputs
  induction inputs with
  | nil =>
    intro retry b hm
    cases b <;> simp [runLoop] at hm
  | cons t rest ih =>
    intro retry b hm
    cases b with
    | true => simp [runLoop] at hm
    | false =>
      by_cases hd : t.death = true
      · simp [runLoop, hd] at hm
      · replace hd : t.death = false := by
          cases hdt : t.death
          · rfl
          · exact absurd hdt hd
        rw [List.countP_cons]
        by_cases h5 : 5 ≤ recordResult retry (heartbeatPrimaryServer t.probeEnv).2
        · rw [recordResult_probeFailed] at h5
          cases hpf : probeFailed t <;> simp [hpf] at h5 ⊢ <;> omega
        · rw [runLoop_cons_step_fst penv retry t rest hd h5] at hm
          have hm' : MAction.promoteCall ∈
              (runLoop penv
                (recordResult retry (heartbeatPrimaryServer t.probeEnv).2)
                t.sigterm rest).1 := by
            rcases List.mem_append.1 hm with h | h
            · rcases List.mem_append.1 h with h' | h'
              · exact absurd h' (preActions_no_promote t.sighup)
              · simp at h'
            · exact h
          have := ih _ t.sigterm hm'
          rw [recordResult_probeFailed] at this
          cases hpf : probeFailed t <;> simp [hpf] at this ⊢ <;> omega

/-- In a run free of shutdown and supervisor-death events, accumulating
five failed probes makes the loop promote. -/
theorem runLoop_reaches_promote (penv : PromoteEnv) :
    ∀ (inputs : List TickInput) (retry : Nat), retry ≤ 4 →
      (∀ t ∈ inputs, t.death = false ∧ t.sigterm = false) →
      5 ≤ retry + inputs.countP probeFailed →
      MAction.promoteCall ∈ (runLoop penv retry false inputs).1 := by
  intro inputs
  induction inputs with
  | nil =>
    intro retry hr _ hsum
    simp [List.countP_nil] at hsum
    omega
  | cons t rest ih =>
    intro retry hr hq hsum
    have hd : t.death = false := (hq t (List.mem_cons_self t rest)).1
    have hst : t.sigterm = false := (hq t (List.mem_cons_self t rest)).2
    by_cases h5 : 5 ≤ recordResult retry (heartbeatPrimaryServer t.probeEnv).2
    · rw [runLoop_cons_promote_fst penv retry t rest hd h5]
      simp
    · have hr2 : recordResult retry (heartbeatPrimaryServer t.probeEnv).2 ≤ 4 := by
        omega
      have hsum' : 5 ≤
          recordResult retry (heartbeatPrimaryServer t.probeEnv).2 +
            rest.countP probeFailed := by
        rw [recordResult_probeFailed]
        rw [List.countP_cons] at hsum
        cases hpf : probeFailed t <;> simp [hpf] at hsum ⊢ <;> omega
      have hq' : ∀ t' ∈ rest, t'.death = false ∧ t'.sigterm = false :=
        fun t' ht' => hq t' (List.mem_cons_of_mem t ht')
      have hmem := ih _ hr2 hq' hsum'
      rw [runLoop_cons_step_fst penv retry t rest hd h5, hst]
      exact List.mem_append.2 (Or.inr hmem)

/-- Every probe action of a run started with `retry_count ≤ 4` records a
counter value of at most 5. -/
theorem runLoop_probe_le (penv : PromoteEnv) :
    ∀ (inputs : List TickInput) (retry : Nat) (b : Bool), retry ≤ 4 →
      ∀ r c, MAction.probe r c ∈ (runLoop penv retry b inputs).1 → c ≤ 5 := by
  intro inputs
  induction inputs with
  | nil =>
    intro retry b hr r c hm
    cases b <;> simp [runLoop] at hm
  | cons t rest ih =>
    intro retry b hr r c hm
    cases b with
    | true => simp [runLoop] at hm
    | false =>
      by_cases hd : t.death = true
      · simp [runLoop, hd] at hm
      · replace hd : t.death = false := by
          cases hdt : t.death
          · rfl
          · exact absurd hdt hd
        by_cases h5 : 5 ≤ recordResult retry (heartbeatPrimaryServer t.probeEnv).2
        · have h5eq : recordResult retry (heartbeatPrimaryServer t.probeEnv).2 = 5 := by
            have := recordResult_le retry (heartbeatPrimaryServer t.probeEnv).2
            omega
          rw [runLoop_cons_promote_fst penv retry t rest hd h5] at hm
          rcases List.mem_append.1 hm with h | h
          · exact absurd h (preActions_no_probe t.sighup r c)
          · simp at h
            omega
        · have hr2 : recordResult retry (heartbeatPrimaryServer t.probeEnv).2 ≤ 4 := by
            omega
          rw [runLoop_cons_step_fst penv retry t rest hd h5] at hm
          rcases List.mem_append.1 hm with h | h
          · rcases List.mem_append.1 h with h' | h'
            · exact absurd h' (preActions_no_probe t.sighup r c)
            · simp at h'
              omega
          · exact ih _ t.sigterm hr2 r c h

/-- A probe action recording counter value 5 only occurs in the
promoting iteration: the run then contains the promotion call and has
exited. -/
theorem runLoop_probe_five (penv : PromoteEnv) :
    ∀ (inputs : List TickInput) (retry : Nat) (b : Bool), retry ≤ 4 →
      ∀ r, MAction.probe r 5 ∈ (runLoop penv retry b inputs).1 →
      MAction.promoteCall ∈ (runLoop penv retry b inputs).1 ∧
        (runLoop penv retry b inputs).2 ≠ none := by
  intro inputs
  induction inputs with
  | nil =>
    intro retry b hr r hm
    cases b <;> simp [runLoop] at hm
  | cons t rest ih =>
    intro retry b hr r hm
    cases b with
    | true => simp [runLoop] at hm
    | false =>
      by_cases hd : t.death = true
      · simp [runLoop, hd] at hm
      · replace hd : t.death = false := by
          cases hdt : t.death
          · rfl
          · exact absurd hdt hd
        by_cases h5 : 5 ≤ recordResult retry (heartbeatPrimaryServer t.probeEnv).2
        · constructor
          · rw [runLoop_cons_promote_fst penv retry t rest hd h5]
            simp
          · rw [runLoop_cons_promote_snd penv retry t rest hd h5]
            simp
        · have hr2 : recordResult retry (heartbeatPrimaryServer t.probeEnv).2 ≤ 4 := by
            omega
          rw [runLoop_cons_step_fst penv retry t rest hd h5] at hm
          have hm' : MAction.probe r 5 ∈
              (runLoop penv
                (recordResult retry (heartbeatPrimaryServer t.probeEnv).2)
                t.sigterm rest).1 := by
            rcases List.mem_append.1 hm with h | h
            · rcases List.mem_append.1 h with h' | h'
              · exact absurd h' (preActions_no_probe t.sighup r 5)
              · simp at h'
                omega
            · exact h
          have := ih _ t.sigterm hr2 r hm'
          constructor
          · rw [runLoop_cons_step_fst penv retry t rest hd h5]
            exact List.mem_append.2 (Or.inr this.1)
          · rw [runLoop_cons_step_snd penv retry t rest hd h5]
            exact this.2

/-! ## Claim theorems -/

/-- C2: `doPromote` attempts its steps strictly in the order create
trigger file, close it, signal the postmaster; the first failing step
makes the process exit with code 1 without attempting any later step —
in particular, when trigger-file creation fails, the postmaster is
never signalled. On full success it performs all three steps in order
and returns normally (the caller then exits 0). -/
theorem doPromote_order (env : PromoteEnv) :
    (env.fopenOk = false →
      doPromote env = ([PStep.createFile], some 1) ∧
      PStep.signalPostmaster ∉ (doPromote env).1 ∧
      PStep.closeFile ∉ (doPromote env).1) ∧
    (env.fopenOk = true → env.fcloseOk = false →
      doPromote env = ([PStep.createFile, PStep.closeFile], some 1) ∧
      PStep.signalPostmaster ∉ (doPromote env).1) ∧
    (env.fopenOk = true → env.fcloseOk = true → env.killOk = false →
      doPromote env =
        ([PStep.createFile, PStep.closeFile, PStep.signalPostmaster], some 1)) ∧
    (env.fopenOk = true → env.fcloseOk = true → env.killOk = true →
      doPromote env =
        ([PStep.createFile, PStep.closeFile, PStep.signalPostmaster], none)) := by
  rcases env with ⟨a, b, c⟩
  cases a <;> cases b <;> cases c <;> simp [doPromote]

/-- Witness for C2: with trigger-file creation failing, `doPromote`
exits with code 1 and never signals the postmaster. -/
theorem doPromote_order_witness :
    doPromote ⟨false, true, true⟩ = ([PStep.createFile], some 1) ∧
    PStep.signalPostmaster ∉ (doPromote ⟨false, true, true⟩).1 ∧
    PStep.closeFile ∉ (doPromote ⟨false, true, true⟩).1 :=
  (doPromote_order ⟨false, true, true⟩).1 rfl

/-- C3: recording a failed probe increments `retry_count` by exactly 1
and a successful probe leaves it unchanged (the sticky, non-resetting
policy); in particular two failures followed by a success leave the
count at 2. -/
theorem recordResult_policy (c : Nat) :
    recordResult c false = c + 1 ∧
    recordResult c true = c ∧
    recordResult (recordResult (recordResult 0 false) false) true = 2 := by
  simp [recordResult]

/-- C5 counterexample: a probe whose connection succeeds and whose
query result has status `PGRES_TUPLES_OK` but carries zero rows is
reported as success by the code, while the claim requires exactly one
row and so calls for failure. -/
theorem heartbeat_rowcount_cex :
    (heartbeatPrimaryServer ⟨true, ExecStatus.PGRES_TUPLES_OK, 0⟩).2 = true ∧
    probeSuccessSpec ⟨true, ExecStatus.PGRES_TUPLES_OK, 0⟩ = false := by
  decide

/-- C5 amended: `heartbeatPrimaryServer` returns success if and only if
the connection is established and the query result status is
`PGRES_TUPLES_OK`; the row count is never inspected. -/
theorem heartbeat_success_iff (env : ProbeEnv) :
    (heartbeatPrimaryServer env).2 = true ↔
      env.connectOk = true ∧ env.status = ExecStatus.PGRES_TUPLES_OK := by
  rcases env with ⟨c, s, n⟩
  cases c <;> cases s <;> simp [heartbeatPrimaryServer]

/-- C7: when the preliminary connectivity check of the setup routine
fails, `PromoterMain` exits immediately with code 1: its trace is empty,
so no latch wait, no probe and no promotion ever happens. -/
theorem setup_failure_exit (ienv : InitEnv) (penv : PromoteEnv)
    (inputs : List TickInput) (h : ienv.connectOk = false) :
    PromoterMain ienv penv inputs = ([], some 1) := by
  simp [PromoterMain, setupWorker, h]

/-- Witness for C7 at a concrete failing setup environment. -/
theorem setup_failure_exit_witness :
    PromoterMain ⟨false⟩ promoteAllOk [failTick] = ([], some 1) :=
  setup_failure_exit ⟨false⟩ promoteAllOk [failTick] rfl

/-- C8: when `WaitLatch` reports postmaster death, the iteration exits
with code 1 right after the wait: the trace of the whole remaining run
is exactly `[wait]`, so no reload processing, no probe and no promotion
happens. -/
theorem postmaster_death_exit (penv : PromoteEnv) (retry : Nat)
    (t : TickInput) (rest : List TickInput) (hd : t.death = true) :
    runLoop penv retry false (t :: rest) = ([MAction.wait], some 1) := by
  simp [runLoop, hd]

/-- Witness for C8: a first tick reporting postmaster death, with a
reload pending and a failing probe environment queued, still exits with
code 1 having only waited. -/
theorem postmaster_death_exit_witness :
    runLoop promoteAllOk 4 false
      (⟨true, true, ⟨false, ExecStatus.PGRES_FATAL_ERROR, 0⟩, false⟩ :: [failTick]) =
      ([MAction.wait], some 1) :=
  postmaster_death_exit promoteAllOk 4
    ⟨true, true, ⟨false, ExecStatus.PGRES_FATAL_ERROR, 0⟩, false⟩ [failTick] rfl

/-- C9: on every exit path of `heartbeatPrimaryServer` — connect
failure, bad query result, or success — `PQfinish` is called exactly
once, and it is the last action before the function returns. -/
theorem heartbeat_releases_connection (env : ProbeEnv) :
    (heartbeatPrimaryServer env).1.count HbAction.finishConn = 1 ∧
    (heartbeatPrimaryServer env).1.getLast? = some HbAction.finishConn := by
  rcases env with ⟨c, s, n⟩
  cases c <;> cases s <;> simp [heartbeatPrimaryServer, List.count_cons]

/-- C4 counterexample: SIGTERM arrives during the wait of the fifth
tick of an all-failure run, yet that iteration still probes (the probe
that takes the counter to 5), still promotes, and the process exits
with code 0 — contradicting the claim that no probe and no promotion
occur after a shutdown request is observed during the wait. -/
theorem shutdown_probe_promote_cex :
    failTickSigterm.sigterm = true ∧
    MAction.probe false 5 ∈
      (runLoop promoteAllOk 0 false
        (List.replicate 4 failTick ++ [failTickSigterm])).1 ∧
    MAction.promoteCall ∈
      (runLoop promoteAllOk 0 false
        (List.replicate 4 failTick ++ [failTickSigterm])).1 ∧
    (runLoop promoteAllOk 0 false
      (List.replicate 4 failTick ++ [failTickSigterm])).2 = some 0 := by
  decide

/-- C4 amended: a shutdown request observed during the wait step is
honoured only at the next loop-head check: the current iteration still
completes (pending reload processing and one more probe), and when that
probe does not take the counter to the threshold, the process exits
with code 1 with no further wait, probe or promotion. -/
theorem sigterm_exit_after_iteration (penv : PromoteEnv) (retry : Nat)
    (t : TickInput) (rest : List TickInput)
    (hs : t.sigterm = true) (hd : t.death = false)
    (h5 : recordResult retry (heartbeatPrimaryServer t.probeEnv).2 < 5) :
    runLoop penv retry false (t :: rest) =
      (preActions t.sighup ++
        [MAction.probe (heartbeatPrimaryServer t.probeEnv).2
          (recordResult retry (heartbeatPrimaryServer t.probeEnv).2)],
        some 1) := by
  have hns : ¬ 5 ≤ recordResult retry (heartbeatPrimaryServer t.probeEnv).2 := by
    omega
  simp [runLoop, hd, hns, hs, runLoop_sigterm]

/-- Witness for the amended C4: a single tick that fails its probe and
observes SIGTERM during its wait ends the run with exit code 1 after
exactly one wait and one probe. -/
theorem sigterm_exit_after_iteration_witness :
    runLoop promoteAllOk 0 false [failTickSigterm] =
      ([MAction.wait, MAction.probe false 1], some 1) :=
  sigterm_exit_after_iteration promoteAllOk 0 failTickSigterm [] rfl rfl
    (by decide)

/-- C6 counterexample: a wake caused only by a reload request still
probes the primary in the same iteration: the trace of the one-tick run
is wait, reload, probe — contradicting the claim that no probe is
performed on a reload-only wake. -/
theorem reload_wake_probe_cex :
    hupTick.sighup = true ∧ hupTick.death = false ∧ hupTick.sigterm = false ∧
    runLoop promoteAllOk 0 false [hupTick] =
      ([MAction.wait, MAction.reload, MAction.probe true 0], none) := by
  decide

/-- C6 amended: on a wake with a reload request pending, the loop
reloads the configuration in place and then performs the regular probe
in the same iteration, before anything else: the trace continues with
wait, reload, probe. -/
theorem reload_then_probe (penv : PromoteEnv) (retry : Nat)
    (t : TickInput) (rest : List TickInput)
    (hh : t.sighup = true) (hd : t.death = false) :
    ∃ tail ex, runLoop penv retry false (t :: rest) =
      (MAction.wait :: MAction.reload ::
        MAction.probe (heartbeatPrimaryServer t.probeEnv).2
          (recordResult retry (heartbeatPrimaryServer t.probeEnv).2) :: tail,
        ex) := by
  by_cases h5 : 5 ≤ recordResult retry (heartbeatPrimaryServer t.probeEnv).2
  · exact ⟨[MAction.promoteCall], some ((doPromote penv).2.getD 0),
      by simp [runLoop, hd, h5, hh, preActions]⟩
  · exact ⟨(runLoop penv (recordResult retry (heartbeatPrimaryServer t.probeEnv).2)
        t.sigterm rest).1,
      (runLoop penv (recordResult retry (heartbeatPrimaryServer t.probeEnv).2)
        t.sigterm rest).2,
      by simp [runLoop, hd, h5, hh, preActions]⟩

/-- Witness for the amended C6: a reload-only wake with a succeeding
probe yields the trace wait, reload, probe. -/
theorem reload_then_probe_witness :
    ∃ tail ex, runLoop promoteAllOk 0 false [hupTick] =
      (MAction.wait :: MAction.reload ::
        MAction.probe (heartbeatPrimaryServer hupTick.probeEnv).2
          (recordResult 0 (heartbeatPrimaryServer hupTick.probeEnv).2) :: tail,
        ex) :=
  reload_then_probe promoteAllOk 0 hupTick [] rfl rfl

/-- A tick whose probe succeeds, with no signals. -/
def okTick : TickInput :=
  ⟨false, false, ⟨true, ExecStatus.PGRES_TUPLES_OK, 1⟩, false⟩

/-- C1: in every run of the loop started fresh (counter 0), if promotion
is invoked then it is invoked exactly once, as the last action of the
run, in the very iteration whose probe took the counter to 5, every
earlier probe having left the counter at most 4; a run whose inputs
carry fewer than five failed probes never promotes; a run free of
shutdown and supervisor-death events that accumulates five failed
probes does promote; and when every promotion step succeeds, the
promoting run exits with code 0. -/
theorem promote_at_threshold (penv : PromoteEnv) (inputs : List TickInput) :
    (MAction.promoteCall ∈ (runLoop penv 0 false inputs).1 →
      (runLoop penv 0 false inputs).1.count MAction.promoteCall = 1 ∧
      ∃ pref r,
        (runLoop penv 0 false inputs).1 =
          pref ++ [MAction.probe r 5, MAction.promoteCall] ∧
        (∀ r' c, MAction.probe r' c ∈ pref → c ≤ 4) ∧
        MAction.promoteCall ∉ pref) ∧
    (inputs.countP probeFailed < 5 →
      MAction.promoteCall ∉ (runLoop penv 0 false inputs).1) ∧
    ((∀ t ∈ inputs, t.death = false ∧ t.sigterm = false) →
      5 ≤ inputs.countP probeFailed →
      MAction.promoteCall ∈ (runLoop penv 0 false inputs).1) ∧
    (MAction.promoteCall ∈ (runLoop penv 0 false inputs).1 →
      penv = promoteAllOk → (runLoop penv 0 false inputs).2 = some 0) := by
  refine ⟨?_, ?_, ?_, ?_⟩
  · intro hm
    obtain ⟨pref, r, htr, hcs, hnp, _⟩ :=
      runLoop_promote_shape penv inputs 0 false (by omega) hm
    refine ⟨?_, pref, r, htr, hcs, hnp⟩
    rw [htr, List.count_append]
    rw [List.count_eq_zero.2 hnp]
    simp
  · intro hlt hm
    have := runLoop_promote_needs_failures penv inputs 0 false hm
    omega
  · intro hq hge
    exact runLoop_reaches_promote penv inputs 0 (by omega) hq (by omega)
  · intro hm hp
    obtain ⟨_, _, _, _, _, hex⟩ :=
      runLoop_promote_shape penv inputs 0 false (by omega) hm
    rw [hex, hp]
    rfl

/-- Witness for C1: five consecutive failed probes promote and, with
every promotion step succeeding, the process exits with code 0. -/
theorem promote_at_threshold_witness :
    MAction.promoteCall ∈
      (runLoop promoteAllOk 0 false (List.replicate 5 failTick)).1 ∧
    (runLoop promoteAllOk 0 false (List.replicate 5 failTick)).2 = some 0 := by
  have h := promote_at_threshold promoteAllOk (List.replicate 5 failTick)
  have hm := h.2.2.1 (by decide) (by decide)
  exact ⟨hm, h.2.2.2 hm rfl⟩

/-- C10: in every run started fresh, the counter value recorded by each
probe satisfies `retry_count ≤ 5` (it is a `Nat`, so `0 ≤ retry_count`
holds by construction), and a probe that records the value 5 belongs to
the iteration that promotes and ends the process: the counter never
exceeds 5 in any reachable state. -/
theorem retry_count_bounded (penv : PromoteEnv) (inputs : List TickInput) :
    (∀ r c, MAction.probe r c ∈ (runLoop penv 0 false inputs).1 → c ≤ 5) ∧
    (∀ r, MAction.probe r 5 ∈ (runLoop penv 0 false inputs).1 →
      MAction.promoteCall ∈ (runLoop penv 0 false inputs).1 ∧
      (runLoop penv 0 false inputs).2 ≠ none) :=
  ⟨runLoop_probe_le penv inputs 0 false (by omega),
   runLoop_probe_five penv inputs 0 false (by omega)⟩

/-- Witness for C10: a sticky-counter run (two failures, one success,
three more failures) records counter value 5 at its sixth probe, and
that iteration promotes and exits. -/
theorem retry_count_bounded_witness :
    (runLoop promoteAllOk 0 false
      [failTick, failTick, okTick, failTick, failTick, failTick]).2 ≠ none ∧
    MAction.promoteCall ∈
      (runLoop promoteAllOk 0 false
        [failTick, failTick, okTick, failTick, failTick, failTick]).1 := by
  have h := (retry_count_bounded promoteAllOk
    [failTick, failTick, okTick, failTick, failTick, failTick]).2 false (by decide)
  exact ⟨h.2, h.1⟩

end PgPromoter
